import Mathlib

/- Verification development for the asynchronous montage-assembly ("reel") job
pipeline of the hack-mit-2025 repository.  The submission client is embedded
from scripts/create-reel.js; the backend pipeline (validator, segment planner,
job store / worker) is not part of the repository sources and is modelled from
the specification, as marked on each such definition. -/

namespace Reel

/-! ## Client: source-directory check (scripts/create-reel.js) -/

/-- One entry of `fsp.readdir(directory, { withFileTypes: true })`: its name and
whether `e.isFile()` holds (false for subdirectories and other non-regular
entries). Names are modelled as character lists. -/
structure DirEntry where
  name : List Char
  isFile : Bool
deriving DecidableEq

/-- The characters of the literal `'.mp4'` from create-reel.js line 89. -/
def mp4Suffix : List Char := ['.', 'm', 'p', '4']

/-- `e.isFile() && e.name.toLowerCase().endsWith('.mp4')`
(create-reel.js line 89). -/
def isEligibleMp4 (e : DirEntry) : Bool :=
  e.isFile && mp4Suffix.isSuffixOf (e.name.map Char.toLower)

/-- `entries.filter(...).length` from create-reel.js line 89. -/
def mp4Count (entries : List DirEntry) : Nat :=
  (entries.filter isEligibleMp4).length

/-- The error exits of the client before any job request is posted. -/
inductive ClientErr
  | directoryNotFound
  | tooFewClips (found : Nat)
  | musicNotFound
  | missingArgs
deriving DecidableEq

/-- `requireDirectoryWithTwoMp4s` (create-reel.js lines 84-93): `listing` is
`none` when the directory path does not resolve, `some entries` otherwise. -/
def requireDirectoryWithTwoMp4s (listing : Option (List DirEntry)) :
    Except ClientErr Unit :=
  match listing with
  | none => Except.error ClientErr.directoryNotFound
  | some entries =>
    if mp4Count entries < 2 then Except.error (ClientErr.tooFewClips (mp4Count entries))
    else Except.ok ()

/-- `requireFile(musicPath)` (create-reel.js lines 95-99). -/
def requireFile (musicExists : Bool) : Except ClientErr Unit :=
  if musicExists then Except.ok () else Except.error ClientErr.musicNotFound

/-! ## Client: argument parsing (parseArgs, create-reel.js lines 26-73) -/

/-- A JavaScript number as the client manipulates it: either a finite value or
NaN (the result of parsing a non-numeric string). -/
inductive JSNum
  | num (q : ℚ)
  | nan
deriving DecidableEq

/-- Value of a decimal-digit string (most significant first). -/
def digitsToNat (ds : List Char) : Nat :=
  ds.foldl (fun a c => 10 * a + (c.toNat - 48)) 0

/-- Split a character list into its maximal decimal-digit prefix and the rest. -/
def splitDigits (l : List Char) : List Char × List Char :=
  (l.takeWhile Char.isDigit, l.dropWhile Char.isDigit)

/-- Consume an optional leading sign, JS-number style. -/
def parseSign : List Char → Int × List Char
  | '-' :: r => (-1, r)
  | '+' :: r => (1, r)
  | r => (1, r)

/-- Modelled JS runtime semantics of `Number.parseInt(s, 10)` as used on line
54: skip leading whitespace, optional sign, then the maximal decimal-digit
prefix; NaN when that prefix is empty.  `none` stands for the `undefined`
argument (whose string form `"undefined"` has no digit prefix, hence NaN). -/
def parseIntJS (s : Option String) : JSNum :=
  match s with
  | none => JSNum.nan
  | some str =>
    let cs := str.toList.dropWhile Char.isWhitespace
    let sr := parseSign cs
    let ds := (splitDigits sr.2).1
    if ds.isEmpty then JSNum.nan else JSNum.num ((sr.1 * digitsToNat ds : Int) : ℚ)

/-- Modelled JS runtime semantics of `Number.parseFloat` as used on lines
56-62: skip leading whitespace, optional sign, decimal digits with optional
fraction and optional decimal exponent; NaN when no digits at all (the
`Infinity` literal form is not exercised by this client and is not modelled). -/
def parseFloatJS (s : Option String) : JSNum :=
  match s with
  | none => JSNum.nan
  | some str =>
    let cs := str.toList.dropWhile Char.isWhitespace
    let sr := parseSign cs
    let intPart := splitDigits sr.2
    let fracPart :=
      match intPart.2 with
      | '.' :: r => splitDigits r
      | r => (([] : List Char), r)
    if intPart.1.isEmpty ∧ fracPart.1.isEmpty then JSNum.nan
    else
      let mant : ℚ :=
        (digitsToNat intPart.1 : ℚ) + (digitsToNat fracPart.1 : ℚ) / (10 : ℚ) ^ fracPart.1.length
    let expVal : Int :=
      match fracPart.2 with
      | 'e' :: r | 'E' :: r =>
        let es := parseSign r
        let eDs := (splitDigits es.2).1
        if eDs.isEmpty then 0 else es.1 * digitsToNat eDs
      | _ => 0
    JSNum.num ((sr.1 : ℚ) * mant * (10 : ℚ) ^ expVal)

/-- The `args` object of parseArgs (create-reel.js lines 27-37).  String-valued
options may be assigned `undefined` when the flag is the last token, hence
`Option String`. -/
structure Args where
  directory : Option String
  musicPath : Option String
  maxFiles : JSNum
  targetDurationSec : JSNum
  minDurationSec : JSNum
  maxDurationSec : JSNum
  perSegmentSec : JSNum
  server : Option String
  help : Bool
deriving DecidableEq

/-- The defaults of create-reel.js lines 27-37. -/
def defaultArgs : Args :=
  { directory := none, musicPath := none, maxFiles := JSNum.num 20,
    targetDurationSec := JSNum.num 30, minDurationSec := JSNum.num 28,
    maxDurationSec := JSNum.num 36, perSegmentSec := JSNum.num 3,
    server := some "http://localhost:6741", help := false }

/-- One switch dispatch of parseArgs (create-reel.js lines 42-69): given the
current `args`, the key and `next = argv[i+1]`, return the updated `args` and
whether the value was consumed (`i++`). Unknown arguments only warn. -/
def parseArgsStep (a : Args) (key : String) (next : Option String) : Args × Bool :=
  if key = "--help" ∨ key = "-h" then ({ a with help := true }, false)
  else if key = "--directory" ∨ key = "-d" then ({ a with directory := next }, true)
  else if key = "--musicPath" ∨ key = "-m" then ({ a with musicPath := next }, true)
  else if key = "--maxFiles" then ({ a with maxFiles := parseIntJS next }, true)
  else if key = "--targetDurationSec" then
    ({ a with targetDurationSec := parseFloatJS next }, true)
  else if key = "--minDurationSec" then
    ({ a with minDurationSec := parseFloatJS next }, true)
  else if key = "--maxDurationSec" then
    ({ a with maxDurationSec := parseFloatJS next }, true)
  else if key = "--perSegmentSec" then
    ({ a with perSegmentSec := parseFloatJS next }, true)
  else if key = "--server" ∨ key = "-s" then ({ a with server := next }, true)
  else (a, false)

/-- The `for` loop of parseArgs (create-reel.js lines 39-70): when the key is
the last token, `next` is `undefined` and the extra `i++` of a value option
just ends the loop. -/
def parseArgsLoop : Args → List String → Args
  | a, [] => a
  | a, [key] => (parseArgsStep a key none).1
  | a, key :: next :: rest =>
    let s := parseArgsStep a key (some next)
    if s.2 then parseArgsLoop s.1 rest else parseArgsLoop s.1 (next :: rest)

/-- `parseArgs(process.argv)` starts at index 2 (create-reel.js line 39). -/
def parseArgs (argv : List String) : Args :=
  parseArgsLoop defaultArgs (argv.drop 2)

/-! ## Client: request body and submission (main, create-reel.js lines 128-200) -/

/-- The fragment of JSON the client builds and posts. -/
inductive Json
  | null
  | bool (v : Bool)
  | num (q : ℚ)
  | str (s : String)
  | obj (fields : List (String × Json))

/-- Modelled JS runtime semantics of `JSON.stringify` on a number value:
finite numbers serialize as themselves, NaN serializes as `null`
(create-reel.js line 166). -/
def Json.ofJSNum : JSNum → Json
  | JSNum.num q => Json.num q
  | JSNum.nan => Json.null

/-- The `body` object of create-reel.js lines 152-164 (field order preserved). -/
def buildBody (a : Args) (dir music : String) : Json :=
  Json.obj
    [("directory", Json.str dir),
     ("mode", Json.str "montage"),
     ("target_duration_sec", Json.ofJSNum a.targetDurationSec),
     ("min_duration_sec", Json.ofJSNum a.minDurationSec),
     ("max_duration_sec", Json.ofJSNum a.maxDurationSec),
     ("per_segment_sec", Json.ofJSNum a.perSegmentSec),
     ("max_files", Json.ofJSNum a.maxFiles),
     ("aspect", Json.str "9:16"),
     ("music_url", Json.str music),
     ("music_only", Json.bool true),
     ("end_with_low", Json.bool true)]

/-- JS falsiness of the string-valued options at line 135: `undefined` and the
empty string are falsy. -/
def strFalsy : Option String → Bool
  | none => true
  | some s => s.isEmpty

/-- How a run of `main` ends before any polling: help shown (exit 0), an error
exit before the POST (exit 1, no job-creation request issued), or the POST of
the JSON body to `/api/reels/jobs`. -/
inductive ClientOutcome
  | helpShown
  | failed (e : ClientErr)
  | posted (body : Json)

/-- The synchronous part of `main` (create-reel.js lines 128-176): parse
arguments, show help, require both paths, run the two source checks, then post
the body.  `listing` is the directory resolution result and `musicExists` the
music-path check, as in `requireDirectoryWithTwoMp4s` / `requireFile`. -/
def clientPrepare (argv : List String) (listing : Option (List DirEntry))
    (musicExists : Bool) : ClientOutcome :=
  let a := parseArgs argv
  if a.help then ClientOutcome.helpShown
  else if strFalsy a.directory || strFalsy a.musicPath then
    ClientOutcome.failed ClientErr.missingArgs
  else
    match requireDirectoryWithTwoMp4s listing with
    | Except.error e => ClientOutcome.failed e
    | Except.ok _ =>
      match requireFile musicExists with
      | Except.error e => ClientOutcome.failed e
      | Except.ok _ =>
        ClientOutcome.posted (buildBody a (a.directory.getD "") (a.musicPath.getD ""))

/-! ## Client: polling loop (main, create-reel.js lines 203-231) -/

/-- One iteration's observable outcome: the fetch threw, the response was not
ok, `pollResp.json()` threw, or a body parsed whose `status` field is given
(`none` when the field is absent). -/
inductive PollOutcome
  | netError
  | httpError
  | parseError
  | parsed (st : Option String)
deriving DecidableEq

/-- `status === 'completed' || status === 'failed'` (create-reel.js line 227). -/
def isTerminal (st : Option String) : Bool :=
  st = some "completed" || st = some "failed"

/-- What the loop leaves behind: the last successfully parsed body's status
field (`statusJson`, `none` while nothing parsed), the number of poll attempts
performed, and the list of `sleep` durations (ms) taken between attempts. -/
structure PollResult where
  statusJson : Option (Option String)
  attempts : Nat
  sleeps : List Nat
deriving DecidableEq

/-- The `for (let i = 0; i < 600; i++)` loop of create-reel.js lines 204-231:
transport errors, non-ok responses and parse failures sleep 1000 ms and retry
(consuming the attempt); a parsed terminal status breaks immediately; a parsed
non-terminal status sleeps 1000 ms and continues.  `statusJson` is only
overwritten by a successful parse. -/
def pollLoopAux (resp : Nat → PollOutcome) : Nat → Nat → Option (Option String) → PollResult
  | 0, _, sj => { statusJson := sj, attempts := 0, sleeps := [] }
  | fuel + 1, i, sj =>
    match resp i with
    | PollOutcome.netError =>
      let r := pollLoopAux resp fuel (i + 1) sj
      { statusJson := r.statusJson, attempts := r.attempts + 1, sleeps := 1000 :: r.sleeps }
    | PollOutcome.httpError =>
      let r := pollLoopAux resp fuel (i + 1) sj
      { statusJson := r.statusJson, attempts := r.attempts + 1, sleeps := 1000 :: r.sleeps }
    | PollOutcome.parseError =>
      let r := pollLoopAux resp fuel (i + 1) sj
      { statusJson := r.statusJson, attempts := r.attempts + 1, sleeps := 1000 :: r.sleeps }
    | PollOutcome.parsed st =>
      if isTerminal st then { statusJson := some st, attempts := 1, sleeps := [] }
      else
        let r := pollLoopAux resp fuel (i + 1) (some st)
        { statusJson := r.statusJson, attempts := r.attempts + 1, sleeps := 1000 :: r.sleeps }

/-- The polling loop run from attempt 0 with its literal bound of 600. -/
def pollLoop (resp : Nat → PollOutcome) : PollResult :=
  pollLoopAux resp 600 0 none

/-! ## Backend (modelled from the spec)

The backend pipeline — validator, segment planner, job store, scheduler and
status projection — is described by spec sections 3-5 and 7 but its
implementation is not among the repository sources (only the submission
clients are).  Every definition below marked `Modelled from the spec` is a
model of that missing code, faithful to the spec's words. -/

/-- Modelled from the spec (section 6): the validated submission fields the
pipeline consumes.  Durations are seconds as exact rationals. -/
structure ReelRequest where
  targetDurationSec : ℚ
  minDurationSec : ℚ
  maxDurationSec : ℚ
  perSegmentSec : ℚ
  maxFiles : Nat
  aspect : String
  musicOnly : Bool
  endWithLow : Bool
deriving DecidableEq

/-- Modelled from the spec (section 7): the synchronous request errors. -/
inductive ReqError
  | insufficientSources
  | musicUnavailable
  | invalidDurationBounds
  | invalidSegmentLength
  | invalidFileCount
  | unsupportedAspect
deriving DecidableEq

/-- Modelled from the spec (section 4.1, check 6): the fixed allowed aspect
set. -/
def allowedAspects : List String := ["9:16", "1:1", "16:9"]

/-- Modelled from the spec (section 4.1): the missing backend Validator.
`sourceClips` is `none` when the source reference does not resolve and
`some n` when it resolves to a location with `n` eligible clips; `musicOk`
is the music-reference check.  The six checks run in order, failing fast on
the first violation; `none` means the submission is accepted. -/
def validate (sourceClips : Option Nat) (musicOk : Bool) (r : ReelRequest) :
    Option ReqError :=
  match sourceClips with
  | none => some ReqError.insufficientSources
  | some n =>
    if n < 2 then some ReqError.insufficientSources
    else if musicOk = false then some ReqError.musicUnavailable
    else if ¬ (0 < r.minDurationSec ∧ r.minDurationSec ≤ r.targetDurationSec ∧
               r.targetDurationSec ≤ r.maxDurationSec) then
      some ReqError.invalidDurationBounds
    else if ¬ (0 < r.perSegmentSec ∧ r.perSegmentSec ≤ r.maxDurationSec) then
      some ReqError.invalidSegmentLength
    else if r.maxFiles < 2 then some ReqError.invalidFileCount
    else if r.aspect ∉ allowedAspects then some ReqError.unsupportedAspect
    else none

/-! ## Backend: segment planner (modelled from the spec, section 4.2) -/

/-- One source clip as discovered at planning time: an opaque reference and
its length in seconds. -/
structure Clip where
  ref : Nat
  len : ℚ
deriving DecidableEq

/-- One source contribution to the final reel (spec section 3). -/
structure Segment where
  source : Nat
  trimStart : ℚ
  trimEnd : ℚ
deriving DecidableEq

/-- The window length of a segment. -/
def Segment.winLen (s : Segment) : ℚ := s.trimEnd - s.trimStart

/-- Total planned duration of a plan. -/
def totalDuration (plan : List Segment) : ℚ := (plan.map Segment.winLen).sum

/-- Modelled from the spec (section 4.2, step 2): a trim window of length
`min(per_segment_sec, clip_length)` taken from the clip's midpoint. -/
def midWindow (perSeg : ℚ) (c : Clip) : Segment :=
  let w := min perSeg c.len
  let s := (c.len - w) / 2
  { source := c.ref, trimStart := s, trimEnd := s + w }

/-- Modelled from the spec (section 7): the planning error. -/
inductive PlanError
  | durationUnreachable
deriving DecidableEq

/-- Modelled from the spec (section 4.2, steps 2-3): for each candidate in
order, append its midpoint window while the running total is below the
target; stop once the total reaches or exceeds the target (the `max_files`
segment cap is enforced by the candidate cap of step 1). -/
def greedyFill (target perSeg : ℚ) : List Clip → ℚ → List Segment
  | [], _ => []
  | c :: rest, total =>
    if target ≤ total then []
    else
      midWindow perSeg c ::
        greedyFill target perSeg rest (total + (midWindow perSeg c).winLen)

/-- Modelled from the spec (section 4.2, step 4): trim the final segment's
window so the total shrinks by `excess`. -/
def trimLastSegment (excess : ℚ) : List Segment → List Segment
  | [] => []
  | [s] => [{ source := s.source, trimStart := s.trimStart, trimEnd := s.trimEnd - excess }]
  | s :: s2 :: rest => s :: trimLastSegment excess (s2 :: rest)

/-- Modelled from the spec (section 4.2): the Segment Planner.  Candidates
are the source clips in their stable enumeration order, capped at
`max_files` (step 1; the `end_with_low` bias only reorders that enumeration
and is absorbed into the given clip order).  Greedy fill (steps 2-3), then
trim the final segment when the total exceeds `max_duration_sec` (step 4),
and fail with `ErrDurationUnreachable` when the total is still below
`min_duration_sec` after exhausting all candidates (step 5). -/
def planSegments (r : ReelRequest) (clips : List Clip) :
    Except PlanError (List Segment) :=
  let cands := clips.take r.maxFiles
  let plan := greedyFill r.targetDurationSec r.perSegmentSec cands 0
  let total := totalDuration plan
  if total < r.minDurationSec then Except.error PlanError.durationUnreachable
  else if r.maxDurationSec < total then
    Except.ok (trimLastSegment (total - r.maxDurationSec) plan)
  else Except.ok plan

/-! ## Backend: job record and worker transitions (modelled from the spec,
sections 3, 4.3-4.5) -/

/-- Modelled from the spec (section 3): the job status values. -/
inductive JStatus
  | queued
  | processing
  | completed
  | failed
deriving DecidableEq

/-- Modelled from the spec (section 7): structured failure reasons recorded
on a failed job. -/
inductive JError
  | planError (e : PlanError)
  | collaborator (msg : String)
  | cancelled
  | timeout
deriving DecidableEq

/-- Modelled from the spec (section 3): the job record. -/
structure Job where
  request : ReelRequest
  status : JStatus
  plan : Option (List Segment)
  artifacts : List (String × String)
  error : Option JError
deriving DecidableEq

/-- Modelled from the spec (section 3): a job is created queued, with no
plan, no artifacts and no error. -/
def initJob (r : ReelRequest) : Job :=
  { request := r, status := JStatus.queued, plan := none, artifacts := [], error := none }

/-- The stable artifact key of the best-reel artifact (section 6). -/
def bestReelKey : String := "best_reel_mp4"

/-- Modelled from the spec: submission creates a job (status queued) only
when validation passes; otherwise the error is returned synchronously and no
job is created (section 4.1). -/
def submit (sourceClips : Option Nat) (musicOk : Bool) (r : ReelRequest) :
    Except ReqError Job :=
  match validate sourceClips musicOk r with
  | some e => Except.error e
  | none => Except.ok (initJob r)

/-- Modelled from the spec (sections 3-4.4): the transitions the owning
worker may perform on a job record, over the source listing `clips`
discovered at planning time.  A queued job is dequeued to processing; the
plan is computed exactly once while processing (write-once) and a planning
error fails the job; completion records the best-reel artifact; cancellation,
timeout and collaborator failures abort a non-terminal job.  No transition
leaves a terminal status. -/
inductive JobStep (clips : List Clip) : Job → Job → Prop
  | dequeue (j : Job) :
      j.status = JStatus.queued →
      JobStep clips j { j with status := JStatus.processing }
  | plan (j : Job) (p : List Segment) :
      j.status = JStatus.processing → j.plan = none →
      planSegments j.request clips = Except.ok p →
      JobStep clips j { j with plan := some p }
  | planFail (j : Job) (e : PlanError) :
      j.status = JStatus.processing → j.plan = none →
      planSegments j.request clips = Except.error e →
      JobStep clips j { j with status := JStatus.failed, error := some (JError.planError e) }
  | complete (j : Job) (path : String) :
      j.status = JStatus.processing → j.plan.isSome →
      JobStep clips j { j with status := JStatus.completed,
                               artifacts := (bestReelKey, path) :: j.artifacts }
  | abort (j : Job) (e : JError) :
      (j.status = JStatus.queued ∨ j.status = JStatus.processing) →
      JobStep clips j { j with status := JStatus.failed, error := some e }

/-- Reachability of job states through worker transitions. -/
def JobReach (clips : List Clip) : Job → Job → Prop :=
  Relation.ReflTransGen (JobStep clips)

/-- Position of a status in the lifecycle order
`queued < processing < {completed, failed}`. -/
def statusRank : JStatus → Nat
  | JStatus.queued => 0
  | JStatus.processing => 1
  | JStatus.completed => 2
  | JStatus.failed => 2

/-- Modelled from the spec (section 5): an execution of one job is a sequence
of persisted snapshots in which each instant either changes nothing or
applies one worker transition; polls read these snapshots. -/
def Execution (clips : List Clip) (t : Nat → Job) : Prop :=
  ∀ n, t (n + 1) = t n ∨ JobStep clips (t n) (t (n + 1))

/-- Modelled from the spec (section 4.5): the polling response. -/
structure PollResponse where
  status : JStatus
  artifacts : Option (List (String × String))
  error : Option JError

/-- Modelled from the spec (section 4.5): the read-only status/artifact
projection: status always; the artifact map once completed; the error once
failed. -/
def pollProjection (j : Job) : PollResponse :=
  { status := j.status,
    artifacts := if j.status = JStatus.completed then some j.artifacts else none,
    error := if j.status = JStatus.failed then j.error else none }

/-! ## Concrete instances used by examples and witnesses -/

/-- The request with the client's default numbers (create-reel.js lines 27-37
and 152-164): target 30 s, minimum 28 s, maximum 36 s, 3 s per segment, at
most 20 files, 9:16, music only, end with low. -/
def reqDefault : ReelRequest :=
  { targetDurationSec := 30, minDurationSec := 28, maxDurationSec := 36,
    perSegmentSec := 3, maxFiles := 20, aspect := "9:16",
    musicOnly := true, endWithLow := true }

/-- A directory of `n` clips of 10 s each (the spec's section 8 example),
referenced by their enumeration index. -/
def uniformClips (n : Nat) : List Clip :=
  (List.range n).map (fun i => { ref := i, len := 10 })

/-- The plan the section 8 example expects: ten 3-second midpoint windows
(seconds 3.5 to 6.5) of the first ten clips. -/
def planTen : List Segment :=
  (List.range 10).map (fun i => { source := i, trimStart := 7 / 2, trimEnd := 13 / 2 })

/-- A completed job over `reqDefault` as the worker leaves it. -/
def jobDone : Job :=
  { request := reqDefault, status := JStatus.completed, plan := some planTen,
    artifacts := [(bestReelKey, "/uploads/reels/j1/best.mp4")], error := none }

/-- A request whose duration bounds are inverted (minimum above maximum). -/
def reqBadBounds : ReelRequest :=
  { targetDurationSec := 30, minDurationSec := 40, maxDurationSec := 36,
    perSegmentSec := 3, maxFiles := 20, aspect := "9:16",
    musicOnly := true, endWithLow := true }

/-- A directory listing with exactly two eligible clips, one of them with an
upper-case extension, plus a subdirectory and a non-mp4 file. -/
def listingTwo : List DirEntry :=
  [{ name := "a.mp4".toList, isFile := true },
   { name := "B.MP4".toList, isFile := true },
   { name := "notes.txt".toList, isFile := true },
   { name := "sub.mp4".toList, isFile := false }]

/-- A command line passing a non-numeric value to `--maxFiles`. -/
def argvNanMaxFiles : List String :=
  ["node", "scripts/create-reel.js", "--directory", "./clips",
   "--musicPath", "./music.mp3", "--maxFiles", "abc"]

/-- A plain command line with only the two required options. -/
def argvBasic : List String :=
  ["node", "scripts/create-reel.js", "--directory", "./clips",
   "--musicPath", "./music.mp3"]

/-! ## Theorems -/

/-- C9: In the client's source check, a directory entry counts as an eligible
clip if and only if it is a regular file whose name, compared
case-insensitively, ends with ".mp4"; subdirectories and files with any other
extension are never counted toward the two-clip requirement. -/
theorem eligible_clip_characterization (e : DirEntry) :
    isEligibleMp4 e = true ↔
      (e.isFile = true ∧
        ∃ stem rest, e.name = stem ++ rest ∧ rest.map Char.toLower = mp4Suffix) := by
  unfold isEligibleMp4
  rw [Bool.and_eq_true]
  constructor
  · rintro ⟨hf, hs⟩
    refine ⟨hf, ?_⟩
    rw [List.isSuffixOf_iff_suffix] at hs
    obtain ⟨t, ht⟩ := hs
    obtain ⟨l1, l2, hsplit, _, h2⟩ := List.map_eq_append_iff.mp ht.symm
    exact ⟨l1, l2, hsplit, h2⟩
  · rintro ⟨hf, stem, rest, hname, hlow⟩
    refine ⟨hf, ?_⟩
    rw [List.isSuffixOf_iff_suffix]
    exact ⟨stem.map Char.toLower, by rw [hname, List.map_append, hlow]⟩

/-- C10: a non-numeric value passed to --maxFiles parses to NaN, the client
performs no rejection, and the job request is posted with max_files
serialized as null in the JSON body. -/
theorem nan_numeric_option_serialized_null :
    (parseArgs argvNanMaxFiles).maxFiles = JSNum.nan ∧
      ∃ fields, clientPrepare argvNanMaxFiles (some listingTwo) true =
          ClientOutcome.posted (Json.obj fields) ∧
        fields.lookup "max_files" = some Json.null :=
  ⟨rfl, _, rfl, rfl⟩

/-- C5: for a fixed source listing and fixed request parameters, two runs of
the Segment Planner produce identical plans (same segments, same trim
windows, same order): the planner's output is a function of exactly these
two inputs. -/
theorem planner_deterministic (r : ReelRequest) (c1 c2 : List Clip)
    (h : c1 = c2) : planSegments r c1 = planSegments r c2 := by rw [h]

/-- Witness for C5 at the default request over ten uniform clips. -/
theorem planner_deterministic_witness :
    planSegments reqDefault (uniformClips 10) = planSegments reqDefault (uniformClips 10) :=
  planner_deterministic reqDefault (uniformClips 10) (uniformClips 10) rfl

/-- C4 counterexample: a submission with inverted duration bounds AND an
unresolved-or-short source fails on the earlier source check, so the reported
error is ErrInsufficientSources, not ErrInvalidDurationBounds. -/
theorem duration_bounds_not_reported_counterexample :
    reqBadBounds.maxDurationSec < reqBadBounds.minDurationSec ∧
      validate (some 0) true reqBadBounds = some ReqError.insufficientSources ∧
      ¬ validate (some 0) true reqBadBounds = some ReqError.invalidDurationBounds := by
  refine ⟨by norm_num [reqBadBounds], by simp [validate], by simp [validate]⟩

/-- C4 (amended): a submission violating
0 < min_duration_sec ≤ target_duration_sec ≤ max_duration_sec always fails
validation synchronously and no job is created, regardless of source content;
the error is ErrInvalidDurationBounds whenever the earlier source and music
checks pass (the validator fails fast in check order). -/
theorem invalid_duration_bounds_rejected (sourceClips : Option Nat) (musicOk : Bool)
    (r : ReelRequest)
    (hbad : ¬ (0 < r.minDurationSec ∧ r.minDurationSec ≤ r.targetDurationSec ∧
               r.targetDurationSec ≤ r.maxDurationSec)) :
    (∃ e, validate sourceClips musicOk r = some e) ∧
      (∀ jb, ¬ submit sourceClips musicOk r = Except.ok jb) ∧
      (∀ n, sourceClips = some n → 2 ≤ n → musicOk = true →
        validate sourceClips musicOk r = some ReqError.invalidDurationBounds) := by
  have hval : ∃ e, validate sourceClips musicOk r = some e := by
    cases sourceClips with
    | none => exact ⟨ReqError.insufficientSources, rfl⟩
    | some n =>
      by_cases h2 : n < 2
      · exact ⟨ReqError.insufficientSources, by simp [validate, h2]⟩
      · by_cases hm : musicOk = false
        · exact ⟨ReqError.musicUnavailable, by simp [validate, h2, hm]⟩
        · exact ⟨ReqError.invalidDurationBounds, by simp [validate, h2, hm, hbad]⟩
  refine ⟨hval, ?_, ?_⟩
  · intro jb hok
    obtain ⟨e, he⟩ := hval
    rw [submit, he] at hok
    exact Except.noConfusion hok
  · rintro n rfl h2n hmt
    have h2 : ¬ n < 2 := by omega
    simp [validate, h2, hmt, hbad]

/-- Witness for C4's amended theorem: inverted bounds with a healthy source
and music are reported as ErrInvalidDurationBounds. -/
theorem invalid_duration_bounds_rejected_witness :
    validate (some 5) true reqBadBounds = some ReqError.invalidDurationBounds :=
  (invalid_duration_bounds_rejected (some 5) true reqBadBounds
    (by norm_num [reqBadBounds])).2.2 5 rfl (by norm_num) rfl

/-- C3: when the source directory does not resolve or holds fewer than two
eligible clips, the client fails synchronously with one of the two
source-check errors and never posts a job-creation request. -/
theorem insufficient_sources_no_job (argv : List String)
    (listing : Option (List DirEntry)) (musicExists : Bool)
    (hhelp : (parseArgs argv).help = false)
    (hdir : strFalsy (parseArgs argv).directory = false)
    (hmusic : strFalsy (parseArgs argv).musicPath = false)
    (hbad : listing = none ∨ ∃ entries, listing = some entries ∧ mp4Count entries < 2) :
    (∃ e, clientPrepare argv listing musicExists = ClientOutcome.failed e ∧
        (e = ClientErr.directoryNotFound ∨ ∃ k, k < 2 ∧ e = ClientErr.tooFewClips k)) ∧
      ∀ body, ¬ clientPrepare argv listing musicExists = ClientOutcome.posted body := by
  have hout : ∃ e, clientPrepare argv listing musicExists = ClientOutcome.failed e ∧
      (e = ClientErr.directoryNotFound ∨ ∃ k, k < 2 ∧ e = ClientErr.tooFewClips k) := by
    rcases hbad with rfl | ⟨entries, rfl, hcount⟩
    · refine ⟨ClientErr.directoryNotFound, ?_, Or.inl rfl⟩
      simp [clientPrepare, hhelp, hdir, hmusic, requireDirectoryWithTwoMp4s]
    · refine ⟨ClientErr.tooFewClips (mp4Count entries), ?_, Or.inr ⟨_, hcount, rfl⟩⟩
      simp [clientPrepare, hhelp, hdir, hmusic, requireDirectoryWithTwoMp4s, hcount]
  obtain ⟨e, he, hcase⟩ := hout
  refine ⟨⟨e, he, hcase⟩, ?_⟩
  intro body hposted
  rw [he] at hposted
  exact ClientOutcome.noConfusion hposted

/-- Witness for C3: the basic command line over an empty directory listing. -/
theorem insufficient_sources_no_job_witness :
    (∃ e, clientPrepare argvBasic (some []) true = ClientOutcome.failed e ∧
        (e = ClientErr.directoryNotFound ∨ ∃ k, k < 2 ∧ e = ClientErr.tooFewClips k)) ∧
      ∀ body, ¬ clientPrepare argvBasic (some []) true = ClientOutcome.posted body :=
  insufficient_sources_no_job argvBasic (some []) true rfl rfl rfl
    (Or.inr ⟨[], rfl, by norm_num [mp4Count]⟩)

-- The polling loop never performs more attempts than its fuel.
theorem pollLoopAux_attempts_le (resp : Nat → PollOutcome) :
    ∀ fuel i sj, (pollLoopAux resp fuel i sj).attempts ≤ fuel := by
  intro fuel
  induction fuel with
  | zero => intro i sj; simp [pollLoopAux]
  | succ f ih =>
    intro i sj
    cases h : resp i with
    | netError => simpa [pollLoopAux, h] using Nat.succ_le_succ (ih (i + 1) sj)
    | httpError => simpa [pollLoopAux, h] using Nat.succ_le_succ (ih (i + 1) sj)
    | parseError => simpa [pollLoopAux, h] using Nat.succ_le_succ (ih (i + 1) sj)
    | parsed st =>
      by_cases ht : isTerminal st
      · simp [pollLoopAux, h, ht]
      · simpa [pollLoopAux, h, ht] using Nat.succ_le_succ (ih (i + 1) (some st))

-- Every sleep the polling loop takes is the fixed 1000 ms interval.
theorem pollLoopAux_sleeps (resp : Nat → PollOutcome) :
    ∀ fuel i sj m, m ∈ (pollLoopAux resp fuel i sj).sleeps → m = 1000 := by
  intro fuel
  induction fuel with
  | zero => intro i sj m hm; simp [pollLoopAux] at hm
  | succ f ih =>
    intro i sj m hm
    cases h : resp i with
    | netError =>
      simp [pollLoopAux, h] at hm
      rcases hm with rfl | hm
      · rfl
      · exact ih (i + 1) sj m hm
    | httpError =>
      simp [pollLoopAux, h] at hm
      rcases hm with rfl | hm
      · rfl
      · exact ih (i + 1) sj m hm
    | parseError =>
      simp [pollLoopAux, h] at hm
      rcases hm with rfl | hm
      · rfl
      · exact ih (i + 1) sj m hm
    | parsed st =>
      by_cases ht : isTerminal st
      · simp [pollLoopAux, h, ht] at hm
      · simp [pollLoopAux, h, ht] at hm
        rcases hm with rfl | hm
        · rfl
        · exact ih (i + 1) (some st) m hm

-- When the poll at offset j is the first terminal one, the loop stops there:
-- j + 1 attempts, the terminal status recorded, one sleep per retry before it.
theorem pollLoopAux_first_terminal (resp : Nat → PollOutcome) (st : Option String)
    (hst : isTerminal st = true) :
    ∀ j fuel i sj, j < fuel → resp (i + j) = PollOutcome.parsed st →
      (∀ k, k < j → ∀ s2, resp (i + k) = PollOutcome.parsed s2 → isTerminal s2 = false) →
      pollLoopAux resp fuel i sj =
        { statusJson := some st, attempts := j + 1, sleeps := List.replicate j 1000 } := by
  intro j
  induction j with
  | zero =>
    intro fuel i sj hfuel hresp _
    obtain ⟨f, rfl⟩ : ∃ f, fuel = f + 1 := ⟨fuel - 1, by omega⟩
    simp only [Nat.add_zero] at hresp
    simp [pollLoopAux, hresp, hst]
  | succ j ih =>
    intro fuel i sj hfuel hresp hbefore
    obtain ⟨f, rfl⟩ : ∃ f, fuel = f + 1 := ⟨fuel - 1, by omega⟩
    have hshift : ∀ k, k < j → ∀ s2, resp (i + 1 + k) = PollOutcome.parsed s2 →
        isTerminal s2 = false := by
      intro k hk s2 hs2
      refine hbefore (k + 1) (by omega) s2 ?_
      rw [show i + (k + 1) = i + 1 + k by omega]
      exact hs2
    have hresp1 : resp (i + 1 + j) = PollOutcome.parsed st := by
      rw [show i + 1 + j = i + (j + 1) by omega]
      exact hresp
    cases h : resp i with
    | netError =>
      have hrec := ih f (i + 1) sj (by omega) hresp1 hshift
      simp [pollLoopAux, h, hrec, List.replicate_succ]
    | httpError =>
      have hrec := ih f (i + 1) sj (by omega) hresp1 hshift
      simp [pollLoopAux, h, hrec, List.replicate_succ]
    | parseError =>
      have hrec := ih f (i + 1) sj (by omega) hresp1 hshift
      simp [pollLoopAux, h, hrec, List.replicate_succ]
    | parsed s2 =>
      have hs2 : isTerminal s2 = false := by
        refine hbefore 0 (by omega) s2 ?_
        simpa using h
      have hrec := ih f (i + 1) (some s2) (by omega) hresp1 hshift
      simp [pollLoopAux, h, hs2, hrec, List.replicate_succ]

/-- C8: the client's polling loop performs at most 600 attempts, each retry
separated by the fixed 1000 ms sleep, and it stops at the first poll whose
parsed status is completed or failed (transport errors, non-ok responses and
parse failures consume an attempt and retry). -/
theorem poll_loop_bounded (resp : Nat → PollOutcome) (j : Nat) (st : Option String) :
    (pollLoop resp).attempts ≤ 600 ∧
      (∀ m ∈ (pollLoop resp).sleeps, m = 1000) ∧
      (j < 600 → resp j = PollOutcome.parsed st → isTerminal st = true →
        (∀ k, k < j → ∀ s2, resp k = PollOutcome.parsed s2 → isTerminal s2 = false) →
        pollLoop resp =
          { statusJson := some st, attempts := j + 1, sleeps := List.replicate j 1000 }) := by
  refine ⟨pollLoopAux_attempts_le resp 600 0 none, ?_, ?_⟩
  · intro m hm
    exact pollLoopAux_sleeps resp 600 0 none m hm
  · intro hj hresp hterm hbefore
    refine pollLoopAux_first_terminal resp st hterm j 600 0 none hj (by simpa using hresp) ?_
    intro k hk s2 hs2
    exact hbefore k hk s2 (by simpa using hs2)

/-- Witness for C8: a run whose first poll already reports completed stops
after exactly one attempt with no sleeps. -/
theorem poll_loop_bounded_witness :
    pollLoop (fun _ => PollOutcome.parsed (some "completed")) =
      { statusJson := some (some "completed"), attempts := 1, sleeps := [] } :=
  (poll_loop_bounded (fun _ => PollOutcome.parsed (some "completed")) 0
      (some "completed")).2.2 (by norm_num) rfl rfl
    (fun k hk => absurd hk (Nat.not_lt_zero k))

-- Total duration distributes over cons.
theorem totalDuration_cons (s : Segment) (p : List Segment) :
    totalDuration (s :: p) = s.winLen + totalDuration p := by
  simp [totalDuration]

-- Trimming the last segment shrinks the total by exactly the excess.
theorem totalDuration_trimLast (e : ℚ) :
    ∀ p : List Segment, ¬ p = [] →
      totalDuration (trimLastSegment e p) = totalDuration p - e := by
  intro p
  induction p with
  | nil => intro h; exact absurd rfl h
  | cons s rest ih =>
    intro _
    cases rest with
    | nil =>
      simp [trimLastSegment, totalDuration, Segment.winLen]
      ring
    | cons s2 r2 =>
      have hrec := ih (by simp)
      rw [trimLastSegment, totalDuration_cons, totalDuration_cons, hrec]
      ring

-- A plan the planner accepts has its total inside the duration budget.
theorem planSegments_ok_bounds (r : ReelRequest) (clips : List Clip) (plan : List Segment)
    (h0 : 0 < r.minDurationSec) (h1 : r.minDurationSec ≤ r.targetDurationSec)
    (h2 : r.targetDurationSec ≤ r.maxDurationSec)
    (h : planSegments r clips = Except.ok plan) :
    r.minDurationSec ≤ totalDuration plan ∧ totalDuration plan ≤ r.maxDurationSec := by
  simp only [planSegments] at h
  set g := greedyFill r.targetDurationSec r.perSegmentSec (clips.take r.maxFiles) 0 with hg
  by_cases hlt : totalDuration g < r.minDurationSec
  · rw [if_pos hlt] at h
    exact absurd h (by simp)
  · rw [if_neg hlt] at h
    by_cases hgt : r.maxDurationSec < totalDuration g
    · rw [if_pos hgt] at h
      have hne : ¬ g = [] := by
        intro hnil
        rw [hnil] at hgt
        have hz : totalDuration ([] : List Segment) = 0 := by simp [totalDuration]
        rw [hz] at hgt
        linarith
      have htot := totalDuration_trimLast (totalDuration g - r.maxDurationSec) g hne
      have hplan : trimLastSegment (totalDuration g - r.maxDurationSec) g = plan :=
        Except.ok.inj h
      rw [← hplan, htot]
      constructor
      · linarith
      · linarith
    · rw [if_neg hgt] at h
      have hplan : g = plan := Except.ok.inj h
      rw [← hplan]
      exact ⟨le_of_not_lt hlt, le_of_not_lt hgt⟩

-- The greedy fill stops as soon as the running total reaches the target.
theorem greedyFill_stop (target perSeg total : ℚ) (l : List Clip)
    (h : target ≤ total) : greedyFill target perSeg l total = [] := by
  cases l with
  | nil => rfl
  | cons c rest => simp [greedyFill, h]

-- A midpoint window is min(per_segment, clip length) long.
theorem midWindow_winLen (p : ℚ) (c : Clip) : (midWindow p c).winLen = min p c.len := by
  simp [midWindow, Segment.winLen]

-- On ten 10-second clips followed by anything, the greedy fill with the
-- default request takes exactly ten 3-second midpoint windows and stops.
theorem greedyFill_uniform_ten (l : List Clip) :
    greedyFill 30 3 (uniformClips 10 ++ l) 0 = planTen := by
  have h10 : uniformClips 10 =
      [{ ref := 0, len := 10 }, { ref := 1, len := 10 }, { ref := 2, len := 10 },
       { ref := 3, len := 10 }, { ref := 4, len := 10 }, { ref := 5, len := 10 },
       { ref := 6, len := 10 }, { ref := 7, len := 10 }, { ref := 8, len := 10 },
       { ref := 9, len := 10 }] := by
    norm_num [uniformClips, List.range_succ]
  rw [h10]
  norm_num [greedyFill, midWindow, Segment.winLen, planTen, List.range_succ, greedyFill_stop]

-- With at least ten uniform clips the planner returns the ten-segment plan.
theorem planSegments_uniform_ge (m : Nat) :
    planSegments reqDefault (uniformClips (10 + m)) = Except.ok planTen := by
  have hsplit : uniformClips (10 + m) =
      uniformClips 10 ++ (List.range m).map (fun i => { ref := 10 + i, len := 10 }) := by
    simp [uniformClips, List.range_add, Function.comp]
  have hlen : (uniformClips 10).length = 10 := by simp [uniformClips]
  have htake : (uniformClips (10 + m)).take 20 =
      uniformClips 10 ++
        ((List.range m).map (fun i => ({ ref := 10 + i, len := 10 } : Clip))).take 10 := by
    rw [hsplit, List.take_append_eq_append_take, hlen,
      List.take_of_length_le (by rw [hlen]; omega)]
  simp only [planSegments, reqDefault]
  rw [htake, greedyFill_uniform_ten]
  norm_num [totalDuration, planTen, Segment.winLen, List.range_succ]

-- The ten-segment plan at the default request from exactly ten clips.
theorem planSegments_default_ten :
    planSegments reqDefault (uniformClips 10) = Except.ok planTen := by
  simpa using planSegments_uniform_ge 0

/-- C6: for a directory of uniform 10-second clips under the request
target 30, min 28, max 36, per-segment 3, max-files 20, the planner returns
ten 3-second segments (30 s total) from ten distinct clips whenever at least
ten clips are available, and fails with ErrDurationUnreachable (a planning
failure, not a validation error) whenever fewer than ceil(28 / 3) = 10 clips
exist. -/
theorem planner_uniform_example (n : Nat) :
    (10 ≤ n → planSegments reqDefault (uniformClips n) = Except.ok planTen) ∧
      (n < 10 → planSegments reqDefault (uniformClips n) =
        Except.error PlanError.durationUnreachable) ∧
      planTen.length = 10 ∧
      (∀ s ∈ planTen, Segment.winLen s = 3) ∧
      totalDuration planTen = 30 ∧
      (planTen.map Segment.source).Nodup := by
  refine ⟨?_, ?_, ?_, ?_, ?_, ?_⟩
  · intro h
    obtain ⟨m, rfl⟩ : ∃ m, n = 10 + m := ⟨n - 10, by omega⟩
    exact planSegments_uniform_ge m
  · intro h
    interval_cases n <;>
      norm_num [planSegments, reqDefault, uniformClips, List.range_succ, greedyFill,
        midWindow, Segment.winLen, totalDuration]
  · norm_num [planTen]
  · intro s hs
    simp only [planTen, List.mem_map, List.mem_range] at hs
    obtain ⟨i, _, rfl⟩ := hs
    norm_num [Segment.winLen]
  · norm_num [totalDuration, planTen, Segment.winLen, List.range_succ]
  · have hmap : planTen.map Segment.source = List.range 10 := rfl
    rw [hmap]
    exact List.nodup_range 10

/-- Witness for C6 at ten and at five clips. -/
theorem planner_uniform_example_witness :
    planSegments reqDefault (uniformClips 10) = Except.ok planTen ∧
      planSegments reqDefault (uniformClips 5) =
        Except.error PlanError.durationUnreachable :=
  ⟨(planner_uniform_example 10).1 (by norm_num),
   (planner_uniform_example 5).2.1 (by norm_num)⟩

-- Invariants along worker transitions: the request is immutable, any
-- recorded plan is the planner's accepted output, and a completed job has a
-- plan recorded.
theorem jobReach_invariant (clips : List Clip) (r : ReelRequest) (j : Job)
    (hr : JobReach clips (initJob r) j) :
    j.request = r ∧
      (∀ p, j.plan = some p → planSegments r clips = Except.ok p) ∧
      (j.status = JStatus.completed → ∃ p, j.plan = some p) := by
  induction hr with
  | refl =>
    refine ⟨rfl, ?_, ?_⟩
    · intro p hp
      simp [initJob] at hp
    · intro hc
      simp [initJob] at hc
  | tail _ hstep ih =>
    obtain ⟨hreq, hplan, hcomp⟩ := ih
    cases hstep with
    | dequeue hq =>
      refine ⟨hreq, hplan, ?_⟩
      intro hc
      simp at hc
    | plan p hst hpl hok =>
      refine ⟨hreq, ?_, ?_⟩
      · intro q hq
        simp at hq
        rw [← hq, ← hreq]
        exact hok
      · intro hc
        simp only at hc
        rw [hst] at hc
        exact JStatus.noConfusion hc
    | planFail e hst hpl herr =>
      refine ⟨hreq, hplan, ?_⟩
      intro hc
      simp at hc
    | complete path hst hsome =>
      refine ⟨hreq, ?_, ?_⟩
      · intro q hq
        simp at hq
        exact hplan q hq
      · intro _
        obtain ⟨p, hp⟩ := Option.isSome_iff_exists.mp hsome
        exact ⟨p, by simpa using hp⟩
    | abort e hst =>
      refine ⟨hreq, hplan, ?_⟩
      intro hc
      simp at hc

/-- C1: every job reachable from submission of a validated request that is
observed completed has a recorded plan whose total planned duration lies
between the request's min_duration_sec and max_duration_sec inclusive. -/
theorem completed_job_duration_within_bounds (clips : List Clip) (r : ReelRequest)
    (j : Job)
    (h0 : 0 < r.minDurationSec) (h1 : r.minDurationSec ≤ r.targetDurationSec)
    (h2 : r.targetDurationSec ≤ r.maxDurationSec)
    (hr : JobReach clips (initJob r) j) (hc : j.status = JStatus.completed) :
    ∃ p, j.plan = some p ∧
      r.minDurationSec ≤ totalDuration p ∧ totalDuration p ≤ r.maxDurationSec := by
  obtain ⟨hreq, hplan, hcomp⟩ := jobReach_invariant clips r j hr
  obtain ⟨p, hp⟩ := hcomp hc
  exact ⟨p, hp, planSegments_ok_bounds r clips p h0 h1 h2 (hplan p hp)⟩

-- A concrete completed run: queued, dequeued, planned, completed.
theorem jobDone_reachable : JobReach (uniformClips 10) (initJob reqDefault) jobDone := by
  have s1 : JobStep (uniformClips 10) (initJob reqDefault)
      { initJob reqDefault with status := JStatus.processing } :=
    JobStep.dequeue _ rfl
  have s2 : JobStep (uniformClips 10)
      { initJob reqDefault with status := JStatus.processing }
      { { initJob reqDefault with status := JStatus.processing } with plan := some planTen } :=
    JobStep.plan _ planTen rfl rfl planSegments_default_ten
  have s3 : JobStep (uniformClips 10)
      { { initJob reqDefault with status := JStatus.processing } with plan := some planTen }
      jobDone :=
    JobStep.complete _ "/uploads/reels/j1/best.mp4" rfl rfl
  exact Relation.ReflTransGen.head s1
    (Relation.ReflTransGen.head s2 (Relation.ReflTransGen.single s3))

/-- Witness for C1: the concrete completed job's plan totals 30 seconds,
inside [28, 36]. -/
theorem completed_job_duration_within_bounds_witness :
    ∃ p, jobDone.plan = some p ∧
      reqDefault.minDurationSec ≤ totalDuration p ∧
        totalDuration p ≤ reqDefault.maxDurationSec :=
  completed_job_duration_within_bounds (uniformClips 10) reqDefault jobDone
    (by norm_num [reqDefault]) (by norm_num [reqDefault]) (by norm_num [reqDefault])
    jobDone_reachable rfl

-- Every status is at most terminal in the lifecycle order.
theorem statusRank_le_two (s : JStatus) : statusRank s ≤ 2 := by
  cases s <;> simp [statusRank]

-- A single worker transition never lowers the lifecycle rank.
theorem jobStep_rank_le (clips : List Clip) (j j2 : Job) (h : JobStep clips j j2) :
    statusRank j.status ≤ statusRank j2.status := by
  cases h with
  | dequeue hq => simp [hq, statusRank]
  | plan p hst hpl hok => simp
  | planFail e hst hpl herr => simp [hst, statusRank]
  | complete path hst hsome => simp [hst, statusRank]
  | abort e hst =>
    have h2 : statusRank ({ j with status := JStatus.failed } : Job).status = 2 := by
      simp [statusRank]
    rw [h2]
    exact statusRank_le_two j.status

/-- C2: along any execution of a job (each instant either leaves the
persisted snapshot unchanged or applies one worker transition), the statuses
observed at any two poll instants i ≤ j are non-decreasing in the lifecycle
order queued < processing < completed/failed: no poll ever observes a
regression. -/
theorem observed_status_monotone (clips : List Clip) (t : Nat → Job)
    (hex : Execution clips t) (i j : Nat) (hij : i ≤ j) :
    statusRank (t i).status ≤ statusRank (t j).status := by
  induction j, hij using Nat.le_induction with
  | base => exact le_refl _
  | succ n hn ih =>
    rcases hex n with heq | hstep
    · rw [heq]
      exact ih
    · exact ih.trans (jobStep_rank_le clips (t n) (t (n + 1)) hstep)

/-- Witness for C2: the constant execution that stays queued. -/
theorem observed_status_monotone_witness :
    statusRank ((fun _ => initJob reqDefault) 0).status ≤
      statusRank ((fun _ => initJob reqDefault) 1).status :=
  observed_status_monotone [] (fun _ => initJob reqDefault)
    (fun _ => Or.inl rfl) 0 1 (by omega)

-- A reachable completed job has the best-reel artifact recorded.
theorem jobReach_artifact (clips : List Clip) (r : ReelRequest) (j : Job)
    (hr : JobReach clips (initJob r) j) :
    j.status = JStatus.completed →
      ∃ path, j.artifacts.lookup bestReelKey = some path := by
  induction hr with
  | refl =>
    intro hc
    simp [initJob] at hc
  | tail _ hstep ih =>
    cases hstep with
    | dequeue hq =>
      intro hc
      simp at hc
    | plan p hst hpl hok =>
      intro hc
      simp only at hc
      rw [hst] at hc
      exact JStatus.noConfusion hc
    | planFail e hst hpl herr =>
      intro hc
      simp at hc
    | complete path hst hsome =>
      intro _
      exact ⟨path, by simp [List.lookup]⟩
    | abort e hst =>
      intro hc
      simp at hc

/-- C7: the polling projection of every reachable completed job carries an
artifacts map that includes the best_reel_mp4 key. -/
theorem completed_job_has_best_reel (clips : List Clip) (r : ReelRequest) (j : Job)
    (hr : JobReach clips (initJob r) j) (hc : j.status = JStatus.completed) :
    ∃ m, (pollProjection j).artifacts = some m ∧
      ∃ path, m.lookup bestReelKey = some path := by
  obtain ⟨path, hp⟩ := jobReach_artifact clips r j hr hc
  exact ⟨j.artifacts, by simp [pollProjection, hc], path, hp⟩

/-- Witness for C7: the concrete completed job exposes best_reel_mp4. -/
theorem completed_job_has_best_reel_witness :
    ∃ m, (pollProjection jobDone).artifacts = some m ∧
      ∃ path, m.lookup bestReelKey = some path :=
  completed_job_has_best_reel (uniformClips 10) reqDefault jobDone
    jobDone_reachable rfl

end Reel
